import Mathlib

/-!
Verification development for a small network-reconnaissance code base:
an asynchronous TCP port scanner (`scanner.py`) and a single-target
HTTP/HTTPS service enumerator (`enumerator.py`).

The Python source is shallowly embedded: strings are `List Char`, byte
buffers are `List Nat`, Python `int` is `Int`, fallible code returns
`Except`/`Option`, and the outcome of each OS-level operation performed
by a probe (connection attempt, service lookup, probe send, response
read, close) is an explicit input to the embedded function.
-/

/-! ## Python string primitives used by the source -/

/-- ASCII whitespace stripped by Python `str.strip()`. -/
def isPyWs (c : Char) : Bool :=
  c = ' ' || c = '\t' || c = '\n' || c = '\r' || c = Char.ofNat 11 || c = Char.ofNat 12

/-- Python `s.strip()`: drop leading and trailing whitespace. -/
def pyStrip (l : List Char) : List Char :=
  ((l.dropWhile isPyWs).reverse.dropWhile isPyWs).reverse

/-- Python `s.split(sep)` for a one-character separator: splits on every
occurrence, keeping empty pieces (`"".split(",") == [""]`). -/
def pySplit (sep : Char) : List Char → List (List Char)
  | [] => [[]]
  | c :: rest =>
    if c = sep then [] :: pySplit sep rest
    else
      match pySplit sep rest with
      | [] => [[c]]
      | piece :: pieces => (c :: piece) :: pieces

/-- Helper for `splitFirst`: accumulates the part before the separator. -/
def splitFirstAux (sep : Char) (acc : List Char) : List Char → List Char × Option (List Char)
  | [] => (acc.reverse, none)
  | c :: rest =>
    if c = sep then (acc.reverse, some rest) else splitFirstAux sep (c :: acc) rest

/-- Python `s.split(sep, maxsplit=1)`: the part before the first separator and,
when the separator occurs, the whole remainder after it. -/
def splitFirst (sep : Char) (l : List Char) : List Char × Option (List Char) :=
  splitFirstAux sep [] l

/-- Python substring test `needle in hay`. -/
def containsSub (needle : List Char) : List Char → Bool
  | [] => needle.isEmpty
  | c :: rest => needle.isPrefixOf (c :: rest) || containsSub needle rest

/-- `'0' ≤ c ≤ '9'`. -/
def isPyDigit (c : Char) : Bool := '0' ≤ c && c ≤ '9'

/-- Numeric value of a decimal digit character. -/
def digitVal (c : Char) : Nat := c.toNat - '0'.toNat

/-- Digits of a Python int literal after the first digit: decimal digits with
single underscores allowed between digits. -/
def digitsVal (acc : Nat) : List Char → Option Nat
  | [] => some acc
  | c :: rest =>
    if isPyDigit c then digitsVal (10 * acc + digitVal c) rest
    else if c = '_' then
      match rest with
      | [] => none
      | d :: rest2 => if isPyDigit d then digitsVal (10 * acc + digitVal d) rest2 else none
    else none

/-- A nonempty run of digits starting a Python int literal. -/
def digitsStart : List Char → Option Nat
  | [] => none
  | c :: rest => if isPyDigit c then digitsVal (digitVal c) rest else none

/-- Python `int(s)` on a decimal string: optional surrounding whitespace,
optional sign, decimal digits (underscores permitted between digits).
`none` models the `ValueError` raised on any other input. -/
def pyInt (l : List Char) : Option Int :=
  match pyStrip l with
  | '+' :: rest => (digitsStart rest).map (fun n => (n : Int))
  | '-' :: rest => (digitsStart rest).map (fun n => -(n : Int))
  | t => (digitsStart t).map (fun n => (n : Int))

/-- Python `range(a, b)` as a list. -/
def pyRange (a b : Int) : List Int :=
  (List.range (b - a).toNat).map (fun (i : Nat) => a + (i : Int))

/-! ## Port Set Resolver (`scanner.py`, `parse_port_spec` / `build_port_list`) -/

/-- Insert into a strictly ascending list, dropping duplicates.  Folding this
over a list computes Python `sorted(set(l))`. -/
def insertUnique (x : Int) : List Int → List Int
  | [] => [x]
  | y :: ys => if x < y then x :: y :: ys else if x = y then y :: ys else y :: insertUnique x ys

/-- Python `sorted(set(l))`: the strictly ascending enumeration of the
distinct elements of `l`. -/
def pySortedSet (l : List Int) : List Int := l.foldr insertUnique []

/-- The guard `0 < port < 65536` of `parse_port_spec`. -/
def inPortRange (p : Int) : Bool := 0 < p && p < 65536

/-- `expand_token` from `parse_port_spec`: a token containing `-` is split at
its first `-` and expanded as the inclusive range `int(start)..int(end)`;
otherwise the token is `int(token)`.  The error value is the offending token
(Python raises `ValueError` from `int`). -/
def expand_token (token : List Char) : Except (List Char) (List Int) :=
  if token.contains '-' then
    match splitFirst '-' token with
    | (s, some e) =>
      match pyInt s, pyInt e with
      | some a, some b => .ok (pyRange a (b + 1))
      | _, _ => .error token
    | (_, none) => .error token
  else
    match pyInt token with
    | some n => .ok [n]
    | none => .error token

/-- The token loop of `parse_port_spec`: strip each raw token, skip empty
tokens, expand the rest in order; the first bad token aborts with an error. -/
def collectTokens : List (List Char) → Except (List Char) (List Int)
  | [] => .ok []
  | raw :: rest =>
    let token := pyStrip raw
    if token.isEmpty then collectTokens rest
    else
      match expand_token token with
      | .error e => .error e
      | .ok ps =>
        match collectTokens rest with
        | .error e => .error e
        | .ok qs => .ok (ps ++ qs)

/-- `parse_port_spec` on an already comma-split list of raw tokens:
`sorted(set(p for p in ports if 0 < p < 65536))`. -/
def parse_tokens (ts : List (List Char)) : Except (List Char) (List Int) :=
  match collectTokens ts with
  | .error e => .error e
  | .ok ports => .ok (pySortedSet (ports.filter inPortRange))

/-- `parse_port_spec` from `scanner.py`: expand a specification such as
`"22,80,8000-8100"` into a sorted duplicate-free list of in-range ports. -/
def parse_port_spec (s : List Char) : Except (List Char) (List Int) :=
  parse_tokens (pySplit ',' s)

/-- The curated common-port list of `build_port_list` (`--top`), verbatim. -/
def top_ports : List Int :=
  [80, 443, 22, 3389, 21, 23, 25, 53, 110, 143, 465, 587, 993, 995, 8080, 8443]

/-- `build_port_list` from `scanner.py`.  `portsArg` models `args.ports`
(`none` = flag absent; the empty string is falsy in Python and also falls
through), `top` models `--top`, and the last two arguments model
`args.start_port` / `args.end_port` (`range(start, end + 1)`). -/
def build_port_list (portsArg : Option (List Char)) (top : Bool) (startPort endPort : Int) :
    Except (List Char) (List Int) :=
  match portsArg with
  | some spec =>
    if spec.isEmpty then
      if top then .ok top_ports else .ok (pyRange startPort (endPort + 1))
    else parse_port_spec spec
  | none =>
    if top then .ok top_ports else .ok (pyRange startPort (endPort + 1))

/-- The resolution pipeline of `main`: `parse_port_spec` followed by the
empty-set check `if not ports: raise SystemExit(...)` (`scanner.py`,
lines 143-145). -/
def resolve_ports (s : List Char) : Except (List Char) (List Int) :=
  match parse_port_spec s with
  | .error e => .error e
  | .ok ps => if ps.isEmpty then .error ("No valid ports to scan.".data) else .ok ps

/-! ## Connection Prober and banner grabbing (`scanner.py`, `grab_banner` / `probe_port`)

The OS-level exceptions that the relevant `socket`/`asyncio` operations can
raise are embedded as `PyExc`.  In Python, `ConnectionRefusedError`,
`ConnectionResetError` and the other `ConnectionError` subclasses, as well as
`TimeoutError`, are all subclasses of `OSError`, so an `except OSError`
clause catches every `PyExc` kind. -/

/-- The exception kinds relevant to the scanner, one constructor per leaf of
the Python exception hierarchy the source distinguishes: `asyncio.TimeoutError`,
`ConnectionRefusedError`, `ConnectionResetError`, any other `ConnectionError`
(for example `BrokenPipeError`), and any `OSError` that is none of the above
(for example `PermissionError` or an errno-carrying socket error). -/
inductive PyExc where
  | timeoutExc | connRefused | connReset | connOther | osOther
deriving DecidableEq

/-- Membership in Python's `ConnectionError` class. -/
def isConnectionError : PyExc → Bool
  | .connRefused => true
  | .connReset => true
  | .connOther => true
  | _ => false

/-- Membership in Python's `OSError` class: every modelled kind is an
`OSError` (`ConnectionError` and `TimeoutError` are subclasses). -/
def isOSError : PyExc → Bool
  | _ => true

def OPEN_STATUS : List Char := "open".data
def CLOSED_STATUS : List Char := "closed".data
def FILTERED_STATUS : List Char := "filtered".data

/-- The `PortScanResult` dataclass of `scanner.py`. -/
structure PortScanResult where
  port : Int
  status : List Char
  service : Option (List Char)
  banner : Option (List Char)
deriving DecidableEq

/-- The environment of one `probe_port` call: the outcome of every OS-level
operation the probe performs.
* `conn`: result of `wait_for(open_connection(host, port), timeout)` —
  `none` means the connection was established, `some e` that it raised `e`;
* `services`: the system services database consulted by
  `socket.getservbyport(port, "tcp")` — `none` means the lookup raises `OSError`;
* `sendExc`: outcome of `writer.write(probe); await writer.drain()`
  (only reached when a probe is selected);
* `readResult`: outcome of `wait_for(reader.read(256), timeout)` — the bytes
  read, or the exception raised;
* `closeExc`: outcome of `writer.close(); await writer.wait_closed()`. -/
structure ProbeEnv where
  conn : Option PyExc
  services : Int → Option (List Char)
  sendExc : Option PyExc
  readResult : Except PyExc (List Nat)
  closeExc : Option PyExc

/-- The probe bytes of `grab_banner`, verbatim from `scanner.py` line 52. -/
def http_probe : List Char := "HEAD / HTTP/1.0\r\nHost: localhost\r\n\r\n".data

/-- The bare line terminator probe of `grab_banner` lines 54 and 56. -/
def crlf_probe : List Char := "\r\n".data

/-- The probe-selection chain of `grab_banner` (lines 49-56):
`if service_name and "http" in service_name`, `elif service_name in
{"smtp", "pop3", "imap"}`, `elif port in {22, 23, 3389}`, else no probe. -/
def selectProbe (port : Int) (service_name : Option (List Char)) : Option (List Char) :=
  if (match service_name with
      | some s => !s.isEmpty && containsSub ("http".data) s
      | none => false) then some http_probe
  else if service_name = some ("smtp".data) || service_name = some ("pop3".data)
      || service_name = some ("imap".data) then some crlf_probe
  else if port = 22 || port = 23 || port = 3389 then some crlf_probe
  else none

/-! ### Lenient byte decoding (`raw.decode(errors="ignore")`)

Python decodes the banner bytes as UTF-8 with `errors="ignore"`: every
maximal invalid subsequence is dropped and decoding continues, so decoding
never raises.  The decoder below follows the UTF-8 validation rules CPython
applies (continuation ranges per lead byte, no overlong forms, no surrogates,
at most U+10FFFF). -/

/-- A UTF-8 continuation byte. -/
def isCont (b : Nat) : Bool := 0x80 ≤ b && b ≤ 0xBF

/-- Lower bound of the first continuation byte of a three-byte sequence. -/
def cont3Lo (b : Nat) : Nat := if b = 0xE0 then 0xA0 else 0x80

/-- Upper bound of the first continuation byte of a three-byte sequence. -/
def cont3Hi (b : Nat) : Nat := if b = 0xED then 0x9F else 0xBF

/-- Lower bound of the first continuation byte of a four-byte sequence. -/
def cont4Lo (b : Nat) : Nat := if b = 0xF0 then 0x90 else 0x80

/-- Upper bound of the first continuation byte of a four-byte sequence. -/
def cont4Hi (b : Nat) : Nat := if b = 0xF4 then 0x8F else 0xBF

/-- UTF-8 decoding with `errors="ignore"`, fuelled for structural recursion:
each step consumes at least one byte and the fuel one unit, so with fuel at
least the input length (as `utf8DecodeIgnore` supplies) the fuel never runs
out.  Each invalid portion (the offending lead byte together with the valid
continuation bytes already consumed) is dropped and decoding resumes. -/
def utf8DecodeAux : Nat → List Nat → List Char
  | 0, _ => []
  | _, [] => []
  | fuel + 1, b :: rest =>
    if b < 0x80 then Char.ofNat b :: utf8DecodeAux fuel rest
    else if b < 0xC2 then utf8DecodeAux fuel rest
    else if b ≤ 0xDF then
      match rest with
      | [] => []
      | b2 :: rest2 =>
        if isCont b2 then
          Char.ofNat (64 * (b - 0xC0) + (b2 - 0x80)) :: utf8DecodeAux fuel rest2
        else utf8DecodeAux fuel rest
    else if b ≤ 0xEF then
      match rest with
      | [] => []
      | b2 :: rest2 =>
        if cont3Lo b ≤ b2 && b2 ≤ cont3Hi b then
          match rest2 with
          | [] => []
          | b3 :: rest3 =>
            if isCont b3 then
              Char.ofNat (4096 * (b - 0xE0) + 64 * (b2 - 0x80) + (b3 - 0x80))
                :: utf8DecodeAux fuel rest3
            else utf8DecodeAux fuel rest2
        else utf8DecodeAux fuel rest
    else if b ≤ 0xF4 then
      match rest with
      | [] => []
      | b2 :: rest2 =>
        if cont4Lo b ≤ b2 && b2 ≤ cont4Hi b then
          match rest2 with
          | [] => []
          | b3 :: rest3 =>
            if isCont b3 then
              match rest3 with
              | [] => []
              | b4 :: rest4 =>
                if isCont b4 then
                  Char.ofNat (262144 * (b - 0xF0) + 4096 * (b2 - 0x80)
                      + 64 * (b3 - 0x80) + (b4 - 0x80))
                    :: utf8DecodeAux fuel rest4
                else utf8DecodeAux fuel rest3
            else utf8DecodeAux fuel rest2
        else utf8DecodeAux fuel rest
    else utf8DecodeAux fuel rest

/-- Python `raw.decode(errors="ignore")`: total lenient UTF-8 decoding. -/
def utf8DecodeIgnore (l : List Nat) : List Char := utf8DecodeAux l.length l

/-- Lines 70-71 of `scanner.py`:
`banner = raw.decode(errors="ignore").strip(); return banner or None`. -/
def probe_read_banner (raw : List Nat) : Option (List Char) :=
  let banner := pyStrip (utf8DecodeIgnore raw)
  if banner.isEmpty then none else some banner

/-- Line 48 of `scanner.py`:
`socket.getservbyport(port, "tcp") if port < 1024 else None`.
The lookup is NOT wrapped in a `try` here, so an unknown port below 1024
raises `OSError` out of `grab_banner`. -/
def lookupService (services : Int → Option (List Char)) (port : Int) :
    Except PyExc (Option (List Char)) :=
  if port < 1024 then
    match services port with
    | some s => .ok (some s)
    | none => .error .osOther
  else .ok none

/-- Lines 65-71 of `scanner.py`: the guarded read
`except (asyncio.TimeoutError, ConnectionResetError, OSError): return None`
followed by decode-strip.  Since every modelled kind is an `OSError`, every
read failure is swallowed. -/
def readStep (env : ProbeEnv) : Except PyExc (Option (List Char)) :=
  match env.readResult with
  | .ok raw => .ok (probe_read_banner raw)
  | .error e =>
    if e = .timeoutExc || e = .connReset || isOSError e then .ok none else .error e

/-- `grab_banner` from `scanner.py`: service lookup (unguarded), probe
selection, guarded probe send (`except (ConnectionError, asyncio.TimeoutError):
return None`), then the guarded read.  An error value models an exception
escaping `grab_banner`. -/
def grab_banner (env : ProbeEnv) (port : Int) : Except PyExc (Option (List Char)) :=
  match lookupService env.services port with
  | .error e => .error e
  | .ok service_name =>
    match selectProbe port service_name with
    | none => readStep env
    | some _ =>
      match env.sendExc with
      | none => readStep env
      | some e =>
        if isConnectionError e || e = .timeoutExc then .ok none else .error e

/-- The two `except` clauses of `probe_port` (lines 87-90):
`asyncio.TimeoutError` is caught first and yields `filtered`;
`(ConnectionRefusedError, OSError)` catches every remaining kind and yields
`closed`. -/
def classifyExc (port : Int) (e : PyExc) : PortScanResult :=
  if e = .timeoutExc then ⟨port, FILTERED_STATUS, none, none⟩
  else ⟨port, CLOSED_STATUS, none, none⟩

/-- `probe_port` from `scanner.py` (minus the semaphore, modelled separately):
the whole open-branch — `grab_banner`, `close`/`wait_closed`, and the guarded
service lookup of lines 82-85 — runs inside the same `try`, so any exception
escaping those steps is classified by the same two `except` clauses. -/
def probe_port (env : ProbeEnv) (port : Int) : PortScanResult :=
  match env.conn with
  | some e => classifyExc port e
  | none =>
    match grab_banner env port with
    | .error e => classifyExc port e
    | .ok banner =>
      match env.closeExc with
      | some e => classifyExc port e
      | none => ⟨port, OPEN_STATUS, env.services port, banner⟩

/-! ## Scan Orchestrator (`scanner.py`, `run_scan`) -/

/-- Insertion step of the stable sort `sorted(results, key=lambda r: r.port)`. -/
def insertByPort (x : PortScanResult) : List PortScanResult → List PortScanResult
  | [] => [x]
  | y :: ys => if x.port ≤ y.port then x :: y :: ys else y :: insertByPort x ys

/-- Python `sorted(results, key=lambda r: r.port)`. -/
def sortByPort (l : List PortScanResult) : List PortScanResult :=
  l.foldr insertByPort []

/-- `run_scan` from `scanner.py`: one `probe_port` task per resolved port
(`asyncio.gather` keeps the order of its argument list), then a sort by port.
`env p` supplies the OS-level outcomes observed by the probe of port `p`. -/
def run_scan (env : Int → ProbeEnv) (ports : List Int) : List PortScanResult :=
  sortByPort (ports.map (fun p => probe_port (env p) p))

/-- A probe environment observing the connection attempt time out. -/
def envConnTimeout : ProbeEnv :=
  ⟨some PyExc.timeoutExc, fun _ => none, none, .ok [], none⟩

/-- A probe environment observing the connection being refused. -/
def envConnRefused : ProbeEnv :=
  ⟨some PyExc.connRefused, fun _ => none, none, .ok [], none⟩

/-- A probe environment in which the connection to port 10 succeeds, the
services database has no entry for `10/tcp` (so `socket.getservbyport`
raises `OSError`), and every other operation would succeed. -/
def envOpenPort10 : ProbeEnv :=
  ⟨none, fun _ => none, none, .ok [72, 105], none⟩

/-- A probe environment in which the connection to port 1023 succeeds, the
services database has no entry for `1023/tcp`, and every other operation
would succeed: the peer sends the bytes `"SH"`. -/
def envOpenPort1023 : ProbeEnv :=
  ⟨none, fun _ => none, none, .ok [83, 72], none⟩

/-- A probe environment in which the connection to port 22 succeeds, the
service name resolves to `"ssh"`, and the banner read raises
`ConnectionResetError`. -/
def envReadReset : ProbeEnv :=
  ⟨none, fun _ => some ("ssh".data), none, .error PyExc.connReset, none⟩

/-- Modelled from the spec: the probe bytes claim C5 prescribes for an
HTTP-like service — a minimal `HEAD / HTTP/1.0` request whose `Host` header
is the target host being scanned.  (`grab_banner` in the source receives no
host argument at all, so its probe cannot depend on the scanned host.) -/
def specHeadRequest (host : List Char) : List Char :=
  "HEAD / HTTP/1.0\r\nHost: ".data ++ host ++ "\r\n\r\n".data

/-! ## Service Header Prober (`enumerator.py`, `parse_headers`) -/

/-- The line-break characters of Python `str.splitlines()` other than
`'\r'` and `'\n'` (which get dedicated treatment for the `"\r\n"` pair):
`'\x0b'`, `'\x0c'`, `'\x1c'`, `'\x1d'`, `'\x1e'`, `'\x85'`, `' '`,
`' '`. -/
def isExtraBreak (c : Char) : Bool :=
  c = Char.ofNat 11 || c = Char.ofNat 12 || c = Char.ofNat 28 || c = Char.ofNat 29
    || c = Char.ofNat 30 || c = Char.ofNat 133 || c = Char.ofNat 8232 || c = Char.ofNat 8233

/-- Helper for `pySplitlines`, accumulating the current line reversed. -/
def pySplitlinesAux (acc : List Char) : List Char → List (List Char)
  | [] => if acc.isEmpty then [] else [acc.reverse]
  | '\r' :: '\n' :: rest => acc.reverse :: pySplitlinesAux [] rest
  | '\r' :: rest => acc.reverse :: pySplitlinesAux [] rest
  | '\n' :: rest => acc.reverse :: pySplitlinesAux [] rest
  | c :: rest =>
    if isExtraBreak c then acc.reverse :: pySplitlinesAux [] rest
    else pySplitlinesAux (c :: acc) rest

/-- Python `s.splitlines()`: `"\r\n"` counts as a single break, a trailing
break produces no empty final line. -/
def pySplitlines (l : List Char) : List (List Char) := pySplitlinesAux [] l

/-- Python `dict` assignment `m[k] = v`: overwrite in place when the key is
present (keeping its position), append otherwise. -/
def dictInsert (m : List (List Char × List Char)) (k v : List Char) :
    List (List Char × List Char) :=
  if m.any (fun p => p.1 == k) then
    m.map (fun p => if p.1 = k then (k, v) else p)
  else m ++ [(k, v)]

/-- Python `m[k]` / `m.get(k)` on the embedded dict. -/
def dictLookup (m : List (List Char × List Char)) (k : List Char) : Option (List Char) :=
  match m.find? (fun p => p.1 == k) with
  | some p => some p.2
  | none => none

/-- The header loop of `parse_headers` (`enumerator.py` lines 42-47): stop at
the first blank line, skip lines without a colon, split at the first colon,
strip both sides, assign into the dict. -/
def headersFromLines (acc : List (List Char × List Char)) :
    List (List Char) → List (List Char × List Char)
  | [] => acc
  | line :: rest =>
    if (pyStrip line).isEmpty then acc
    else if line.contains ':' then
      match splitFirst ':' line with
      | (k, some v) => headersFromLines (dictInsert acc (pyStrip k) (pyStrip v)) rest
      | (_, none) => headersFromLines acc rest
    else headersFromLines acc rest

/-- `parse_headers` from `enumerator.py`: split the raw response into lines,
discard the status line, accumulate headers until the first blank line. -/
def parse_headers (raw : List Char) : List (List Char × List Char) :=
  match pySplitlines raw with
  | [] => []
  | _ :: rest => headersFromLines [] rest

/-! ## Concurrency gate (`scanner.py`, `asyncio.Semaphore(concurrency)`)

`run_scan` creates `asyncio.Semaphore(concurrency)` and every `probe_port`
body runs inside `async with semaphore`.  The admission protocol is embedded
as a transition system: each port's task is `waiting` until it acquires a
semaphore slot, `running` (connection attempt in flight) while it holds it,
and `done` once the `async with` block exits — on success or failure alike —
returning the slot. -/

inductive TaskPhase where
  | waiting | running | done
deriving DecidableEq

/-- Scheduler state: the phase of each probe task and the semaphore's
current value (free slots). -/
structure SchedState where
  phases : List TaskPhase
  avail : Nat
deriving DecidableEq

/-- Number of probes currently in flight. -/
def runningCount (s : SchedState) : Nat :=
  (s.phases.filter (fun p => p == TaskPhase.running)).length

/-- Initial state of `run_scan`: every task waiting, semaphore at the
configured concurrency cap. -/
def initState (n cap : Nat) : SchedState :=
  ⟨List.replicate n TaskPhase.waiting, cap⟩

/-- One scheduler step: a waiting task may acquire a slot only when the
semaphore is positive; a running task releases its slot when its probe
completes (whatever the outcome). -/
inductive SchedStep : SchedState → SchedState → Prop where
  | acquire (s : SchedState) (i : Nat) (h : s.phases.get? i = some TaskPhase.waiting)
      (ha : 0 < s.avail) :
      SchedStep s ⟨s.phases.set i TaskPhase.running, s.avail - 1⟩
  | release (s : SchedState) (i : Nat) (h : s.phases.get? i = some TaskPhase.running) :
      SchedStep s ⟨s.phases.set i TaskPhase.done, s.avail + 1⟩

/-- States reachable by the scan of `n` ports under concurrency cap `cap`. -/
inductive SchedReachable (n cap : Nat) : SchedState → Prop where
  | init : SchedReachable n cap (initState n cap)
  | step {s t : SchedState} : SchedReachable n cap s → SchedStep s t → SchedReachable n cap t

/-! ## Properties of the Port Set Resolver -/

theorem mem_insertUnique (x z : Int) (l : List Int) (h : z ∈ insertUnique x l) :
    z = x ∨ z ∈ l := by
  induction l with
  | nil =>
    simp only [insertUnique, List.mem_singleton] at h
    exact Or.inl h
  | cons y ys ih =>
    simp only [insertUnique] at h
    split at h
    · rcases List.mem_cons.mp h with h | h
      · exact Or.inl h
      · exact Or.inr h
    · split at h
      · exact Or.inr h
      · rcases List.mem_cons.mp h with h | h
        · exact Or.inr (h ▸ List.mem_cons_self y _)
        · rcases ih h with h | h
          · exact Or.inl h
          · exact Or.inr (List.mem_cons_of_mem y h)

theorem pairwise_insertUnique (x : Int) (l : List Int)
    (h : List.Pairwise (· < ·) l) : List.Pairwise (· < ·) (insertUnique x l) := by
  induction l with
  | nil => simp [insertUnique]
  | cons y ys ih =>
    rcases List.pairwise_cons.mp h with ⟨hy, hys⟩
    simp only [insertUnique]
    split
    · next hxy =>
      refine List.pairwise_cons.mpr ⟨?_, h⟩
      intro z hz
      rcases List.mem_cons.mp hz with hz | hz
      · omega
      · have := hy z hz; omega
    · split
      · exact h
      · next hxy hne =>
        refine List.pairwise_cons.mpr ⟨?_, ih hys⟩
        intro z hz
        rcases mem_insertUnique x z ys hz with hz | hz
        · omega
        · exact hy z hz

theorem pairwise_pySortedSet (l : List Int) : List.Pairwise (· < ·) (pySortedSet l) := by
  induction l with
  | nil => simp [pySortedSet]
  | cons x xs ih => exact pairwise_insertUnique x (pySortedSet xs) ih

theorem mem_pySortedSet (l : List Int) (z : Int) (h : z ∈ pySortedSet l) : z ∈ l := by
  induction l with
  | nil => exact absurd h (List.not_mem_nil z)
  | cons x xs ih =>
    rcases mem_insertUnique x z (pySortedSet xs) h with h | h
    · exact h ▸ List.mem_cons_self x xs
    · exact List.mem_cons_of_mem x (ih h)

/-- Every successfully parsed port specification yields a strictly ascending
list of ports within `[1, 65535]`. -/
theorem parse_port_spec_ok (spec : List Char) (l : List Int)
    (h : parse_port_spec spec = .ok l) :
    List.Pairwise (· < ·) l ∧ ∀ p ∈ l, 1 ≤ p ∧ p ≤ 65535 := by
  unfold parse_port_spec parse_tokens at h
  rcases hc : collectTokens (pySplit ',' spec) with e | ports
  · rw [hc] at h; cases h
  · rw [hc] at h
    injection h with h
    subst h
    refine ⟨pairwise_pySortedSet _, ?_⟩
    intro p hp
    have hmem := mem_pySortedSet _ p hp
    have hf := (List.mem_filter.mp hmem).2
    unfold inPortRange at hf
    simp only [Bool.and_eq_true, decide_eq_true_eq] at hf
    omega

/-- `pyRange` is strictly ascending. -/
theorem pyRange_pairwise (a b : Int) : List.Pairwise (· < ·) (pyRange a b) := by
  unfold pyRange
  rw [List.pairwise_map]
  refine (List.pairwise_lt_range _).imp ?_
  intro i j h
  show a + (i : Int) < a + (j : Int)
  omega

/-- Claim C3 (amended): a port set resolved from a port-specification string
is strictly ascending, duplicate-free and within `[1, 65535]`; the curated
common-ports list is duplicate-free and within `[1, 65535]` but is kept in
its fixed, non-ascending order; a set resolved from explicit start/end
bounds is strictly ascending and duplicate-free but is not clamped to the
valid port domain. -/
theorem claim3_port_sets (spec : List Char) (l : List Int)
    (h : parse_port_spec spec = .ok l) :
    (List.Pairwise (· < ·) l ∧ ∀ p ∈ l, 1 ≤ p ∧ p ≤ 65535) ∧
    (top_ports.Nodup ∧ ∀ p ∈ top_ports, 1 ≤ p ∧ p ≤ 65535) ∧
    (∀ a b : Int, List.Pairwise (· < ·) (pyRange a b)) :=
  ⟨parse_port_spec_ok spec l h, ⟨by decide, by decide⟩, pyRange_pairwise⟩

theorem claim3_port_sets_witness :
    List.Pairwise (· < ·) ([22] : List Int) ∧ ((1 : Int) ≤ 22 ∧ (22 : Int) ≤ 65535) ∧
    List.Pairwise (· < ·) (pyRange 0 5) := by
  have h := claim3_port_sets ("22".data) [22] rfl
  exact ⟨h.1.1, h.1.2 22 (by decide), h.2.2 0 5⟩

/-- Claim C3 counterexample: the curated `--top` list is returned verbatim
and is not ascending (443 precedes 22), and the explicit-bounds branch
`range(start, end + 1)` is not filtered to `[1, 65535]` (port 0 survives). -/
theorem claim3_counterexample :
    build_port_list none true 1 1024 = .ok top_ports ∧
    ¬ List.Pairwise (· < ·) top_ports ∧
    build_port_list none false 0 3 = .ok [0, 1, 2, 3] := by
  refine ⟨rfl, ?_, rfl⟩
  intro h
  have h2 := (List.pairwise_cons.mp h).2
  have h3 := (List.pairwise_cons.mp h2).1 22 (List.mem_cons_self 22 _)
  omega

/-- Claim C4: the specification `"22,80,8000-8100"` resolves to exactly the
103 ports 22, 80, 8000..8100; `"70000"` resolves to the empty set and the
pipeline aborts with the configuration error of `main`; `"abc"` aborts
resolution itself with an error naming the offending token. -/
theorem claim4_spec_examples :
    parse_port_spec ("22,80,8000-8100".data)
        = .ok ([22, 80] ++ (List.range 101).map (fun i => (8000 : Int) + i)) ∧
    ([22, 80] ++ (List.range 101).map (fun i => (8000 : Int) + i)).length = 103 ∧
    resolve_ports ("22,80,8000-8100".data)
        = .ok ([22, 80] ++ (List.range 101).map (fun i => (8000 : Int) + i)) ∧
    parse_port_spec ("70000".data) = .ok [] ∧
    resolve_ports ("70000".data) = .error ("No valid ports to scan.".data) ∧
    resolve_ports ("abc".data) = .error ("abc".data) :=
  ⟨rfl, rfl, rfl, rfl, rfl, rfl⟩

/-! ## Properties of range tokens (claim C10) -/

theorem collectTokens_append (xs ys : List (List Char)) :
    collectTokens (xs ++ ys) =
      match collectTokens xs with
      | .error e => .error e
      | .ok ps =>
        match collectTokens ys with
        | .error e => .error e
        | .ok qs => .ok (ps ++ qs) := by
  induction xs with
  | nil =>
    cases h : collectTokens ys <;> simp [collectTokens, h]
  | cons r xs ih =>
    simp only [List.cons_append, collectTokens, List.append_eq]
    by_cases hemp : (pyStrip r).isEmpty
    · simp only [hemp, if_true]
      exact ih
    · simp only [hemp, if_false, Bool.false_eq_true]
      cases he : expand_token (pyStrip r) with
      | error e => rfl
      | ok ps =>
        rw [ih]
        cases collectTokens xs with
        | error e => rfl
        | ok qs =>
          cases collectTokens ys with
          | error e => rfl
          | ok rs => simp [List.append_assoc]

theorem expand_token_empty (tok sa sb : List Char) (a b : Int)
    (hd : tok.contains '-' = true) (hs : splitFirst '-' tok = (sa, some sb))
    (ha : pyInt sa = some a) (hb : pyInt sb = some b) (hba : b < a) :
    expand_token tok = .ok [] := by
  unfold expand_token
  rw [if_pos hd, hs]
  show (match pyInt sa, pyInt sb with
    | some a, some b => Except.ok (pyRange a (b + 1))
    | _, _ => Except.error tok) = .ok []
  rw [ha, hb]
  show Except.ok (pyRange a (b + 1)) = .ok []
  unfold pyRange
  have h0 : (b + 1 - a).toNat = 0 := by omega
  rw [h0]
  rfl

theorem collectTokens_cons_skip (tok : List Char) (ts : List (List Char))
    (hne : pyStrip tok ≠ []) (hexp : expand_token (pyStrip tok) = .ok []) :
    collectTokens (tok :: ts) = collectTokens ts := by
  simp only [collectTokens]
  rw [if_neg (by simpa [List.isEmpty_iff] using hne), hexp]
  cases collectTokens ts <;> simp

/-- Claim C10: a range token whose start exceeds its end expands to the empty
range, raises no error, and the remaining tokens of the specification are
resolved exactly as if the token were absent. -/
theorem claim10_inverted_range (s : List Char) (t1 t2 : List (List Char))
    (tok sa sb : List Char) (a b : Int)
    (hsplit : pySplit ',' s = t1 ++ tok :: t2)
    (hd : (pyStrip tok).contains '-' = true)
    (hs : splitFirst '-' (pyStrip tok) = (sa, some sb))
    (ha : pyInt sa = some a) (hb : pyInt sb = some b) (hba : b < a)
    (hne : pyStrip tok ≠ []) :
    parse_port_spec s = parse_tokens (t1 ++ t2) := by
  unfold parse_port_spec
  rw [hsplit]
  unfold parse_tokens
  rw [collectTokens_append t1 (tok :: t2),
    collectTokens_cons_skip tok t2 hne (expand_token_empty _ sa sb a b hd hs ha hb hba),
    ← collectTokens_append]

theorem claim10_inverted_range_witness :
    parse_port_spec ("8100-8000,22".data) = parse_tokens ["22".data] ∧
    parse_tokens ["22".data] = .ok [22] :=
  ⟨claim10_inverted_range ("8100-8000,22".data) [] ["22".data]
      ("8100-8000".data) ("8100".data) ("8000".data) 8100 8000
      rfl rfl rfl rfl rfl (by decide) (by decide),
   rfl⟩

/-! ## Properties of the Connection Prober (claims C1, C2) -/

/-- Claim C1: the two failure clauses of `probe_port` do classify a timed-out
connection attempt as filtered and every other connection-stage OS error as
closed with service and banner absent — but a successful connection is NOT
always classified open: in `envOpenPort10` the connection to port 10
succeeds (`conn = none`), yet the unguarded `socket.getservbyport` call on
line 48 of `scanner.py` raises `OSError` for the unknown low port and the
outcome is closed. -/
theorem claim1_status_classification :
    (∀ (env : ProbeEnv) (port : Int), env.conn = some PyExc.timeoutExc →
        probe_port env port = ⟨port, FILTERED_STATUS, none, none⟩) ∧
    (∀ (env : ProbeEnv) (port : Int) (e : PyExc), env.conn = some e →
        e ≠ PyExc.timeoutExc →
        probe_port env port = ⟨port, CLOSED_STATUS, none, none⟩) ∧
    envOpenPort10.conn = none ∧
    probe_port envOpenPort10 10 = ⟨10, CLOSED_STATUS, none, none⟩ := by
  refine ⟨?_, ?_, rfl, rfl⟩
  · intro env port h
    simp [probe_port, h, classifyExc]
  · intro env port e h hne
    simp [probe_port, h, classifyExc, hne]

theorem claim1_status_classification_witness :
    probe_port envConnTimeout 5 = ⟨5, FILTERED_STATUS, none, none⟩ ∧
    probe_port envConnRefused 6 = ⟨6, CLOSED_STATUS, none, none⟩ :=
  ⟨claim1_status_classification.1 envConnTimeout 5 rfl,
   claim1_status_classification.2.1 envConnRefused 6 PyExc.connRefused rfl (by decide)⟩

/-- Claim C2: when the connection succeeds, the service lookup succeeds, the
probe send does not raise and the close does not raise, then ANY failure of
the banner read is swallowed — the outcome stays open with an absent
banner.  But a banner-stage failure CAN reclassify the port: in
`envOpenPort1023` the connection to port 1023 succeeds, the unguarded
service-name lookup inside `grab_banner` raises `OSError`, and
`probe_port` reports the port closed. -/
theorem claim2_banner_failures :
    (∀ (env : ProbeEnv) (port : Int) (sname : Option (List Char)) (e : PyExc),
        env.conn = none → lookupService env.services port = .ok sname →
        env.sendExc = none → env.closeExc = none → env.readResult = .error e →
        probe_port env port = ⟨port, OPEN_STATUS, env.services port, none⟩) ∧
    envOpenPort1023.conn = none ∧
    probe_port envOpenPort1023 1023 = ⟨1023, CLOSED_STATUS, none, none⟩ := by
  refine ⟨?_, rfl, rfl⟩
  intro env port sname e hconn hlook hsend hclose hread
  have hread2 : readStep env = .ok none := by
    simp [readStep, hread, isOSError]
  have hgrab : grab_banner env port = .ok none := by
    simp only [grab_banner, hlook]
    cases selectProbe port sname with
    | none => exact hread2
    | some pr => rw [hsend]; exact hread2
  simp [probe_port, hconn, hgrab, hclose]

theorem claim2_banner_failures_witness :
    probe_port envReadReset 22 = ⟨22, OPEN_STATUS, some ("ssh".data), none⟩ :=
  claim2_banner_failures.1 envReadReset 22 (some ("ssh".data)) PyExc.connReset
    rfl rfl rfl rfl rfl

/-! ## Properties of the Banner Heuristic Selector (claim C5) -/

/-- Claim C5 counterexample: for an HTTP-like service the selected probe is
the fixed `http_probe` whose `Host` header is the literal `localhost`; when
the target host being scanned is `example.com` this differs from the probe
the claim prescribes. -/
theorem claim5_counterexample :
    selectProbe 80 (some ("http".data)) = some http_probe ∧
    http_probe ≠ specHeadRequest ("example.com".data) ∧
    http_probe = specHeadRequest ("localhost".data) := by
  refine ⟨rfl, ?_, rfl⟩
  decide

/-- Claim C5 (amended): probe selection is a deterministic function of the
port number and resolved service name; an HTTP-like service name selects the
fixed minimal `HEAD / HTTP/1.0` request whose `Host` header is the constant
`localhost` (not the scanned host); the mail-family service names and the
fixed interactive-port set select a bare line terminator; everything else
selects no probe. -/
theorem claim5_probe_table (port : Int) (s : List Char) :
    (s ≠ [] → containsSub ("http".data) s = true →
        selectProbe port (some s) = some http_probe) ∧
    (s = "smtp".data ∨ s = "pop3".data ∨ s = "imap".data →
        selectProbe port (some s) = some crlf_probe) ∧
    ((port = 22 ∨ port = 23 ∨ port = 3389) → selectProbe port none = some crlf_probe) ∧
    (¬(port = 22 ∨ port = 23 ∨ port = 3389) → selectProbe port none = none) ∧
    http_probe = "HEAD / HTTP/1.0\r\nHost: localhost\r\n\r\n".data ∧
    crlf_probe = "\r\n".data := by
  refine ⟨?_, ?_, ?_, ?_, rfl, rfl⟩
  · intro hne hsub
    have hemp : s.isEmpty = false := by
      cases s with
      | nil => exact absurd rfl hne
      | cons c cs => rfl
    simp [selectProbe, hemp, hsub]
  · rintro (rfl | rfl | rfl) <;> rfl
  · rintro (rfl | rfl | rfl) <;> rfl
  · intro h
    push_neg at h
    simp [selectProbe, h.1, h.2.1, h.2.2]

theorem claim5_probe_table_witness :
    selectProbe 80 (some ("http".data)) = some http_probe ∧
    selectProbe 587 (some ("smtp".data)) = some crlf_probe ∧
    selectProbe 3389 none = some crlf_probe ∧
    selectProbe 8080 none = none :=
  ⟨(claim5_probe_table 80 ("http".data)).1 (by decide) rfl,
   (claim5_probe_table 587 ("smtp".data)).2.1 (Or.inl rfl),
   (claim5_probe_table 3389 ("smtp".data)).2.2.1 (Or.inr (Or.inr rfl)),
   (claim5_probe_table 8080 ("smtp".data)).2.2.2.1 (by decide)⟩

/-! ## Properties of the Response Reader (claim C7) -/

/-- Claim C7: a banner value returned by the read stage is never the empty
string — an all-whitespace response such as `"\r\n"` yields an absent
banner, undecodable bytes are dropped rather than fatal (`0xFF` before an
`S`), and surrounding whitespace is stripped. -/
theorem claim7_banner_sanitize (raw : List Nat) (s : List Char)
    (h : probe_read_banner raw = some s) :
    s ≠ [] ∧ probe_read_banner [13, 10] = none
      ∧ probe_read_banner [32, 83, 13, 10] = some [ 'S' ]
      ∧ probe_read_banner [255, 83] = some [ 'S' ] := by
  refine ⟨?_, rfl, rfl, rfl⟩
  simp only [probe_read_banner] at h
  split at h
  · exact absurd h (by simp)
  · next hne =>
    injection h with h2
    subst h2
    simp only [List.isEmpty_iff] at hne
    exact hne

theorem claim7_banner_sanitize_witness :
    ([ 'S' ] : List Char) ≠ [] ∧ probe_read_banner [13, 10] = none
      ∧ probe_read_banner [32, 83, 13, 10] = some [ 'S' ]
      ∧ probe_read_banner [255, 83] = some [ 'S' ] :=
  claim7_banner_sanitize [255, 83] [ 'S' ] rfl

/-! ## Properties of the Service Header Prober (claim C6) -/

theorem find_map_update (m : List (List Char × List Char)) (k v : List Char)
    (h : m.any (fun p => p.1 == k) = true) :
    (m.map (fun p => if p.1 = k then (k, v) else p)).find? (fun p => p.1 == k)
      = some (k, v) := by
  induction m with
  | nil => simp at h
  | cons q m ih =>
    by_cases hq : q.1 = k
    · simp [List.find?, hq]
    · have h2 : m.any (fun p => p.1 == k) = true := by
        simp only [List.any_cons, Bool.or_eq_true, beq_iff_eq] at h
        rcases h with h | h
        · exact absurd h hq
        · simpa using h
      simp only [List.map_cons, if_neg hq]
      rw [List.find?_cons_of_neg _ (by simpa using hq)]
      exact ih h2

theorem find_append_new (m : List (List Char × List Char)) (k v : List Char)
    (h : m.any (fun p => p.1 == k) = false) :
    (m ++ [(k, v)]).find? (fun p => p.1 == k) = some (k, v) := by
  induction m with
  | nil => simp [List.find?]
  | cons q m ih =>
    simp only [List.any_cons, Bool.or_eq_false_iff] at h
    simp only [List.cons_append]
    rw [List.find?_cons_of_neg _ (by simp [h.1])]
    exact ih h.2

/-- Assignment into the embedded Python dict always wins the subsequent
lookup of the same key: last-write-wins. -/
theorem dictLookup_dictInsert (m : List (List Char × List Char)) (k v : List Char) :
    dictLookup (dictInsert m k v) k = some v := by
  unfold dictInsert dictLookup
  by_cases h : m.any (fun p => p.1 == k)
  · rw [if_pos h, find_map_update m k v h]
  · rw [if_neg h, find_append_new m k v (by simp only [Bool.not_eq_true] at h; exact h)]

/-- The header loop never looks past the first blank line. -/
theorem headersFromLines_stop (ls1 ls2 : List (List Char)) (b : List Char)
    (hb : pyStrip b = []) (m : List (List Char × List Char)) :
    headersFromLines m (ls1 ++ b :: ls2) = headersFromLines m ls1 := by
  induction ls1 generalizing m with
  | nil => simp [headersFromLines, hb]
  | cons l ls ih =>
    simp only [List.cons_append, headersFromLines]
    by_cases h1 : (pyStrip l).isEmpty
    · simp [h1]
    · by_cases h2 : l.contains ':'
      · simp only [h1, h2, if_false, if_true, Bool.false_eq_true]
        rcases hsf : splitFirst ':' l with ⟨k, vo⟩
        cases vo <;> simp [ih]
      · simp [h1, h2, ih]

/-- Claim C6: header parsing ignores everything from the first blank line
on, applies last-write-wins on duplicate names, and on the canned response
discards the status line, splits at the first colon with trimming, and maps
`Server` to `Y` with no entry derived from the body. -/
theorem claim6_headers (ls1 ls2 : List (List Char)) (b : List Char) (hb : pyStrip b = [])
    (m : List (List Char × List Char)) (k v1 v2 : List Char) :
    headersFromLines m (ls1 ++ b :: ls2) = headersFromLines m ls1 ∧
    dictLookup (dictInsert (dictInsert m k v1) k v2) k = some v2 ∧
    parse_headers ("HTTP/1.1 200 OK\r\nServer: X\r\nServer: Y\r\n\r\nbody".data)
      = [("Server".data, "Y".data)] ∧
    parse_headers ("HTTP/1.1 200 OK\r\nA: b:c\r\nskipme\r\n\r\nZ: z".data)
      = [("A".data, "b:c".data)] :=
  ⟨headersFromLines_stop ls1 ls2 b hb m,
   dictLookup_dictInsert (dictInsert m k v1) k v2, rfl, rfl⟩

theorem claim6_headers_witness :
    headersFromLines [] (["Server: X".data] ++ [] :: ["body".data])
        = headersFromLines [] ["Server: X".data] ∧
    dictLookup (dictInsert (dictInsert [] ("Server".data) ("X".data))
        ("Server".data) ("Y".data)) ("Server".data) = some ("Y".data) :=
  ⟨(claim6_headers ["Server: X".data] ["body".data] [] rfl []
      ("Server".data) ("X".data) ("Y".data)).1,
   (claim6_headers ["Server: X".data] ["body".data] [] rfl []
      ("Server".data) ("X".data) ("Y".data)).2.1⟩

/-! ## Properties of the concurrency gate (claim C9) -/

theorem length_filter_set (l : List TaskPhase) (i : Nat) (w v : TaskPhase)
    (p : TaskPhase → Bool) (h : l.get? i = some w) :
    ((l.set i v).filter p).length + (if p w then 1 else 0)
      = (l.filter p).length + (if p v then 1 else 0) := by
  induction l generalizing i with
  | nil => simp at h
  | cons a l ih =>
    cases i with
    | zero =>
      simp only [List.get?] at h
      injection h with h
      subst h
      simp only [List.set, List.filter_cons]
      cases hw : p a <;> cases hv : p v <;> simp [hw, hv]
    | succ n =>
      simp only [List.get?] at h
      have hrec := ih n h
      simp only [List.set, List.filter_cons]
      cases ha : p a <;> simp [ha] <;> omega

theorem runningCount_initState (n cap : Nat) : runningCount (initState n cap) = 0 := by
  unfold runningCount initState
  induction n with
  | zero => rfl
  | succ k ih =>
    rw [List.replicate_succ, List.filter_cons, if_neg (by decide)]
    exact ih

/-- Claim C9: in every state reachable by a scan of `n` ports under
concurrency cap `cap`, the number of in-flight probes plus the free
semaphore slots equals `cap`, so at most `cap` connection attempts are ever
in flight simultaneously; a new probe starts only when a slot is free and
every completed probe releases its slot (the `release` rule applies to
successes and failures alike). -/
theorem claim9_concurrency_cap (n cap : Nat) (s : SchedState)
    (h : SchedReachable n cap s) :
    runningCount s + s.avail = cap ∧ runningCount s ≤ cap := by
  have hinv : runningCount s + s.avail = cap := by
    induction h with
    | init =>
      have h0 := runningCount_initState n cap
      simp only [initState] at h0 ⊢
      omega
    | step hr hstep ih =>
      rename_i s1 t1
      cases hstep with
      | acquire i hi ha =>
        have hc := length_filter_set s1.phases i TaskPhase.waiting TaskPhase.running
          (fun p => p == TaskPhase.running) hi
        simp only [runningCount] at *
        simp at hc
        omega
      | release i hi =>
        have hc := length_filter_set s1.phases i TaskPhase.running TaskPhase.done
          (fun p => p == TaskPhase.running) hi
        simp only [runningCount] at *
        simp at hc
        omega
  exact ⟨hinv, by omega⟩

theorem claim9_concurrency_cap_witness :
    runningCount ⟨[TaskPhase.running, TaskPhase.waiting], 0⟩ + (0 : Nat) = 1 ∧
    runningCount ⟨[TaskPhase.running, TaskPhase.waiting], 0⟩ ≤ 1 :=
  claim9_concurrency_cap 2 1 ⟨[TaskPhase.running, TaskPhase.waiting], 0⟩
    (SchedReachable.step SchedReachable.init
      (SchedStep.acquire (initState 2 1) 0 rfl (by decide)))

/-! ## Properties of the Scan Orchestrator (claim C8) -/

theorem mem_insertByPort (x z : PortScanResult) (l : List PortScanResult)
    (h : z ∈ insertByPort x l) : z = x ∨ z ∈ l := by
  induction l with
  | nil =>
    simp only [insertByPort, List.mem_singleton] at h
    exact Or.inl h
  | cons y ys ih =>
    simp only [insertByPort] at h
    split at h
    · rcases List.mem_cons.mp h with h | h
      · exact Or.inl h
      · exact Or.inr h
    · rcases List.mem_cons.mp h with h | h
      · exact Or.inr (h ▸ List.mem_cons_self y _)
      · rcases ih h with h | h
        · exact Or.inl h
        · exact Or.inr (List.mem_cons_of_mem y h)

theorem perm_insertByPort (x : PortScanResult) (l : List PortScanResult) :
    List.Perm (insertByPort x l) (x :: l) := by
  induction l with
  | nil => exact List.Perm.refl _
  | cons y ys ih =>
    simp only [insertByPort]
    split
    · exact List.Perm.refl _
    · exact (ih.cons y).trans (List.Perm.swap x y ys)

theorem perm_sortByPort (l : List PortScanResult) : List.Perm (sortByPort l) l := by
  induction l with
  | nil => exact List.Perm.refl _
  | cons x xs ih => exact (perm_insertByPort x (sortByPort xs)).trans (ih.cons x)

theorem pairwise_insertByPort (x : PortScanResult) (l : List PortScanResult)
    (h : List.Pairwise (fun a b => a.port ≤ b.port) l) :
    List.Pairwise (fun a b => a.port ≤ b.port) (insertByPort x l) := by
  induction l with
  | nil => simp [insertByPort]
  | cons y ys ih =>
    rcases List.pairwise_cons.mp h with ⟨hy, hys⟩
    simp only [insertByPort]
    split
    · next hxy =>
      refine List.pairwise_cons.mpr ⟨?_, h⟩
      intro z hz
      rcases List.mem_cons.mp hz with hz | hz
      · subst hz; omega
      · have := hy z hz; omega
    · next hxy =>
      refine List.pairwise_cons.mpr ⟨?_, ih hys⟩
      intro z hz
      rcases mem_insertByPort x z ys hz with hz | hz
      · subst hz; omega
      · exact hy z hz

theorem pairwise_sortByPort (l : List PortScanResult) :
    List.Pairwise (fun a b => a.port ≤ b.port) (sortByPort l) := by
  induction l with
  | nil => simp [sortByPort]
  | cons x xs ih => exact pairwise_insertByPort x (sortByPort xs) ih

theorem pairwise_lt_of_le_nodup (l : List PortScanResult)
    (h1 : List.Pairwise (fun a b => a.port ≤ b.port) l)
    (h2 : (l.map (fun r => r.port)).Nodup) :
    List.Pairwise (fun a b => a.port < b.port) l := by
  induction l with
  | nil => exact List.Pairwise.nil
  | cons x xs ih =>
    rcases List.pairwise_cons.mp h1 with ⟨hx, hxs⟩
    simp only [List.map_cons, List.nodup_cons] at h2
    refine List.pairwise_cons.mpr ⟨?_, ih hxs h2.2⟩
    intro y hy
    have hle := hx y hy
    have hne : x.port ≠ y.port := fun he => h2.1 (he ▸ List.mem_map_of_mem _ hy)
    omega

theorem strict_sorted_perm_eq (l1 l2 : List PortScanResult)
    (hp : List.Perm l1 l2)
    (h1 : List.Pairwise (fun a b => a.port < b.port) l1)
    (h2 : List.Pairwise (fun a b => a.port < b.port) l2) : l1 = l2 := by
  haveI : IsAntisymm PortScanResult (fun a b => a.port < b.port) :=
    ⟨fun a b hab hba => absurd hba (by omega)⟩
  exact List.eq_of_perm_of_sorted hp h1 h2

/-- Every branch of `probe_port` reports the probed port itself. -/
theorem probe_port_port (env : ProbeEnv) (p : Int) : (probe_port env p).port = p := by
  have hclass : ∀ e : PyExc, (classifyExc p e).port = p := by
    intro e
    unfold classifyExc
    split <;> rfl
  unfold probe_port
  cases env.conn with
  | some e => exact hclass e
  | none =>
    cases grab_banner env p with
    | error e => exact hclass e
    | ok b =>
      cases env.closeExc with
      | some e => exact hclass e
      | none => rfl

/-- All three branches of `build_port_list` produce duplicate-free lists. -/
theorem build_port_list_nodup (pa : Option (List Char)) (tp : Bool) (sp ep : Int)
    (ports : List Int) (h : build_port_list pa tp sp ep = .ok ports) :
    ports.Nodup := by
  have hrange : ∀ a b : Int, (pyRange a b).Nodup :=
    fun a b => (pyRange_pairwise a b).imp (fun hlt => by omega)
  have htop : top_ports.Nodup := by decide
  cases pa with
  | some spec =>
    simp only [build_port_list] at h
    by_cases hemp : spec.isEmpty
    · rw [if_pos hemp] at h
      cases tp with
      | true => injection h with h; subst h; exact htop
      | false => injection h with h; subst h; exact hrange sp (ep + 1)
    · rw [if_neg hemp] at h
      exact ((parse_port_spec_ok spec ports h).1).imp (fun hlt => by omega)
  | none =>
    simp only [build_port_list] at h
    cases tp with
    | true => injection h with h; subst h; exact htop
    | false => injection h with h; subst h; exact hrange sp (ep + 1)

/-- Claim C8: for every resolved port list, the scan produces exactly one
outcome per distinct resolved port (the multiset of reported ports is the
resolved list itself and each resolved port is reported exactly once), the
outcome list is strictly ascending by port, and the sorted output is
independent of the order in which the per-port probes would complete. -/
theorem claim8_scan_outcomes (env : Int → ProbeEnv) (pa : Option (List Char)) (tp : Bool)
    (sp ep : Int) (ports : List Int) (h : build_port_list pa tp sp ep = .ok ports) :
    List.Perm ((run_scan env ports).map (fun r => r.port)) ports ∧
    List.Pairwise (fun a b => a.port < b.port) (run_scan env ports) ∧
    (∀ p ∈ ports, ((run_scan env ports).filter (fun r => r.port == p)).length = 1) ∧
    (∀ l, List.Perm l (ports.map (fun p => probe_port (env p) p)) →
        sortByPort l = run_scan env ports) := by
  have hnd : ports.Nodup := build_port_list_nodup pa tp sp ep ports h
  have hports : (ports.map (fun p => probe_port (env p) p)).map (fun r => r.port)
      = ports := by
    rw [List.map_map]
    have : ((fun r : PortScanResult => r.port) ∘ fun p => probe_port (env p) p)
        = fun p => p := by
      funext p
      exact probe_port_port (env p) p
    rw [this]
    simp
  have hperm : List.Perm (run_scan env ports)
      (ports.map (fun p => probe_port (env p) p)) :=
    perm_sortByPort _
  have hmapperm : List.Perm ((run_scan env ports).map (fun r => r.port)) ports := by
    have := hperm.map (fun r : PortScanResult => r.port)
    rwa [hports] at this
  have hmapnodup : ((run_scan env ports).map (fun r => r.port)).Nodup :=
    hmapperm.symm.nodup hnd
  have hsorted : List.Pairwise (fun a b => a.port < b.port) (run_scan env ports) :=
    pairwise_lt_of_le_nodup _ (pairwise_sortByPort _) hmapnodup
  refine ⟨hmapperm, hsorted, ?_, ?_⟩
  · intro p hp
    have hcount : List.countP (fun x => x == p)
        ((run_scan env ports).map (fun r => r.port)) = 1 :=
      List.count_eq_one_of_mem hmapnodup (hmapperm.mem_iff.mpr hp)
    rw [List.countP_map, List.countP_eq_length_filter] at hcount
    exact hcount
  · intro l hl
    have hlperm : List.Perm (sortByPort l) (run_scan env ports) :=
      (perm_sortByPort l).trans (hl.trans hperm.symm)
    have hlmapnodup : ((sortByPort l).map (fun r => r.port)).Nodup := by
      have := hlperm.map (fun r : PortScanResult => r.port)
      exact (this.trans hmapperm).symm.nodup hnd
    have hlsorted : List.Pairwise (fun a b => a.port < b.port) (sortByPort l) :=
      pairwise_lt_of_le_nodup _ (pairwise_sortByPort _) hlmapnodup
    exact strict_sorted_perm_eq _ _ hlperm hlsorted hsorted

theorem claim8_scan_outcomes_witness :
    List.Perm ((run_scan (fun _ => envConnRefused) top_ports).map (fun r => r.port))
      top_ports ∧
    ((run_scan (fun _ => envConnRefused) top_ports).filter
      (fun r => r.port == (22 : Int))).length = 1 := by
  have h := claim8_scan_outcomes (fun _ => envConnRefused) none true 1 1024 top_ports rfl
  exact ⟨h.1, h.2.2.1 22 (by decide)⟩
